import Mathlib

set_option maxHeartbeats 1000000

/-
  Verification development for the PowerMax host (initiator group) module
  `plugins/modules/dellemc_powermax_host.py`.

  The Python class `PowerMaxHost` is shallowly embedded below: its pure
  helpers become Lean functions on association lists, and the stateful
  reconciliation run `perform_module_operation` becomes a function over an
  explicit `World` (remote state + fault injection + call trace).  The
  remote management gateway (the PyU4V `provisioning` object) is not part of
  the repository; its operations are modelled from the spec (section 6,
  RemoteHostGateway) as deterministic state updates with injectable faults.
-/

namespace PowerMaxHost

/-- Tri-state of one host flag.  This embeds the payload dictionaries built
by the source's setters: `_set_to_enable` produces
`{'enabled': True, 'override': True}` (here `Enabled`), `_set_to_disable`
produces `{'enabled': False, 'override': True}` (here `Disabled`), and
`_set_to_default` produces `{'enabled': False, 'override': False}`
(here `Default`).  No other payload is ever produced by the source. -/
inductive FlagState where
  | Enabled
  | Disabled
  | Default
deriving DecidableEq, Repr

/-- Loosely-typed raw flag value taken from the playbook's `host_flags`
dictionary.  Python booleans, strings and integers; `is False` tests map to
equality with `RawValue.bool false`, and `in [...]` string-list tests map to
equality with the corresponding `RawValue.str` literals (Python `==` between
values of different types among these is always false). -/
inductive RawValue where
  | bool (b : Bool)
  | str (s : String)
  | int (n : Int)
deriving DecidableEq, Repr

/-- First-match association-list lookup, the embedding of a Python dict
read (dict keys are unique, so first match is the match). -/
def alookup {α : Type} (k : String) : List (String × α) → Option α
  | [] => none
  | q :: rest => if q.1 = k then some q.2 else alookup k rest

/-- Embedding of a Python dict write `d[k] = v`: replace the value at an
existing key, otherwise append the new binding. -/
def ainsert {α : Type} (k : String) (v : α) (d : List (String × α)) :
    List (String × α) :=
  if d.any (fun q => q.1 = k) then d.map (fun q => if q.1 = k then (k, v) else q)
  else d ++ [(k, v)]

/-- Key list of an association list (Python dict insertion order). -/
def akeys {α : Type} (d : List (String × α)) : List String := d.map Prod.fst

/-- A value stored in the single `host_flags` payload dict: either one of
the three tri-state payload dicts written by `_set_to_enable` /
`_set_to_disable` / `_set_to_default` (represented by `FlagState`), or the
plain boolean written under the `'consistent_lun'` key.  The source keeps
both kinds of values in one Python dict, so a tri-state write whose key
lowercases to `consistent_lun` overwrites the boolean entry. -/
inductive FlagValue where
  | state (s : FlagState)
  | boolean (b : Bool)
deriving DecidableEq, Repr

/-- The single `host_flags` payload dict the source builds and mutates
(`new_host_flags_dict` / `current_flags` / `new_flags_dict`). -/
abbrev FlagsDict := List (String × FlagValue)

/-- ASCII lowercase of a character (the effect of Python `str.lower()` on
the ASCII flag-name strings this module handles). -/
def charLower (c : Char) : Char :=
  if 'A' ≤ c ∧ c ≤ 'Z' then Char.ofNat (c.toNat + 32) else c

/-- Embedding of Python `str.lower()` (ASCII). -/
def strLower (s : String) : String := String.mk (s.data.map charLower)

/-- Embeds `_set_to_enable`: `host_flag_dict[host_flag_name.lower()] =
{'enabled': True, 'override': True}`.  The write goes into the one shared
dict, so it clobbers the `'consistent_lun'` entry whenever the lowercased
name is `consistent_lun`. -/
def set_to_enable (host_flag_name : String) (d : FlagsDict) : FlagsDict :=
  ainsert (strLower host_flag_name) (FlagValue.state FlagState.Enabled) d

/-- Embeds `_set_to_disable`. -/
def set_to_disable (host_flag_name : String) (d : FlagsDict) : FlagsDict :=
  ainsert (strLower host_flag_name) (FlagValue.state FlagState.Disabled) d

/-- Embeds `_set_to_default`. -/
def set_to_default (host_flag_name : String) (d : FlagsDict) : FlagsDict :=
  ainsert (strLower host_flag_name) (FlagValue.state FlagState.Default) d

/-- Embeds `_disable_consistent_lun`: `host_flag_dict['consistent_lun'] = False`. -/
def disable_consistent_lun (d : FlagsDict) : FlagsDict :=
  ainsert "consistent_lun" (FlagValue.boolean false) d

/-- Embeds `_enable_consistent_lun`. -/
def enable_consistent_lun (d : FlagsDict) : FlagsDict :=
  ainsert "consistent_lun" (FlagValue.boolean true) d

/-- The fixed flag-name set `self.host_flags_list`.  The source stores a
Python `set`; its iteration order is arbitrary, and since the eight names
are distinct and every per-name update writes a distinct key, fixing the
textual order is content-equivalent. -/
def host_flags_list : List String :=
  ["volume_set_addressing", "environ_set", "disable_q_reset_on_ua", "openvms",
   "avoid_reset_broadcast", "scsi_3", "spc2_protocol_version", "scsi_support1"]

/-- The per-flag body of the loop in `_create_host_flags_dict`: for one
canonical flag name, apply exactly the source's condition chain. -/
def chfd_step (received : List (String × RawValue)) (d : FlagsDict)
    (host_flag_name : String) : FlagsDict :=
  if alookup host_flag_name received = none ∨
      alookup host_flag_name received = some (RawValue.str "unset") ∨
      alookup host_flag_name received = some (RawValue.str "Unset") then
    set_to_default host_flag_name d
  else if alookup host_flag_name received = some (RawValue.bool false) ∨
      alookup host_flag_name received = some (RawValue.str "false") ∨
      alookup host_flag_name received = some (RawValue.str "False") then
    set_to_disable host_flag_name d
  else
    set_to_enable host_flag_name d

/-- Embeds `_create_host_flags_dict` (create-path normalization): loop over
the eight canonical names, then the distinct `consistent_lun` clause. -/
def create_host_flags_dict (received : List (String × RawValue)) : FlagsDict :=
  let d := host_flags_list.foldl (chfd_step received) []
  if alookup "consistent_lun" received = none ∨
      alookup "consistent_lun" received = some (RawValue.bool false) ∨
      alookup "consistent_lun" received = some (RawValue.str "unset") ∨
      alookup "consistent_lun" received = some (RawValue.str "Unset") ∨
      alookup "consistent_lun" received = some (RawValue.str "false") ∨
      alookup "consistent_lun" received = some (RawValue.str "False") then
    disable_consistent_lun d
  else
    enable_consistent_lun d

/-- Characterization of the create-path tri-state rule for a single flag
name (used in theorem statements; the executable code path is `chfd_step`). -/
def norm_flag_rule (received : List (String × RawValue)) (host_flag_name : String) :
    FlagState :=
  if alookup host_flag_name received = none ∨
      alookup host_flag_name received = some (RawValue.str "unset") ∨
      alookup host_flag_name received = some (RawValue.str "Unset") then
    FlagState.Default
  else if alookup host_flag_name received = some (RawValue.bool false) ∨
      alookup host_flag_name received = some (RawValue.str "false") ∨
      alookup host_flag_name received = some (RawValue.str "False") then
    FlagState.Disabled
  else
    FlagState.Enabled

/-- Characterization of the create-path `consistent_lun` rule (used in
theorem statements). -/
def clun_rule (received : List (String × RawValue)) : Bool :=
  if alookup "consistent_lun" received = none ∨
      alookup "consistent_lun" received = some (RawValue.bool false) ∨
      alookup "consistent_lun" received = some (RawValue.str "unset") ∨
      alookup "consistent_lun" received = some (RawValue.str "Unset") ∨
      alookup "consistent_lun" received = some (RawValue.str "false") ∨
      alookup "consistent_lun" received = some (RawValue.str "False") then
    false
  else
    true

/-- Helper for the embedding of `re.sub(r'\(.*?\)', '', flag)`: starting
just after a literal `'('`, find the nearest `')'` (the non-greedy match
end) and return the remaining suffix; `.` does not match a newline, so a
newline before any `')'` makes the match fail. -/
def findClose : List Char → Option (List Char)
  | [] => none
  | c :: rest =>
    if c = ')' then some rest
    else if c = '\n' then none
    else findClose rest

theorem findClose_length_lt {l r : List Char} (h : findClose l = some r) :
    r.length < l.length := by
  induction l with
  | nil => simp [findClose] at h
  | cons c rest ih =>
    simp only [findClose] at h
    split at h
    · cases h
      simp
    · split at h
      · cases h
      · have := ih h
        simp only [List.length_cons]
        omega

/-- Fuelled worker for the embedding of `re.sub(r'\(.*?\)', '', s)`: scan
left to right; at each `'('` try the non-greedy match to the nearest `')'`
and drop the matched segment, otherwise keep the character.  The fuel only
serves structural termination; `stripParFuel_irrel` below shows any fuel of
at least the list length computes the same answer. -/
def stripParFuel : Nat → List Char → List Char
  | 0, _ => []
  | _ + 1, [] => []
  | fuel + 1, c :: rest =>
    if c = '(' then
      match findClose rest with
      | some rest' => stripParFuel fuel rest'
      | none => c :: stripParFuel fuel rest
    else c :: stripParFuel fuel rest

theorem stripParFuel_irrel :
    ∀ (n m : Nat) (l : List Char), l.length ≤ n → l.length ≤ m →
      stripParFuel n l = stripParFuel m l := by
  intro n
  induction n with
  | zero =>
    intro m l hn _
    have : l = [] := List.length_eq_zero.mp (Nat.le_zero.mp hn)
    subst this
    cases m <;> rfl
  | succ n ih =>
    intro m l hn hm
    cases l with
    | nil => cases m <;> rfl
    | cons c rest =>
      cases m with
      | zero => simp at hm
      | succ m =>
        simp only [List.length_cons, Nat.succ_le_succ_iff] at hn hm
        simp only [stripParFuel]
        by_cases hc : c = '('
        · simp only [if_pos hc]
          cases hfc : findClose rest with
          | some rest' =>
            have hlt := findClose_length_lt hfc
            simp only [ih m rest' (by omega) (by omega)]
          | none =>
            simp only [ih m rest hn hm]
        · simp only [if_neg hc]
          rw [ih m rest hn hm]

/-- The embedding of `re.sub(r'\(.*?\)', '', flag)` on the character list. -/
def stripPar (l : List Char) : List Char := stripParFuel l.length l

/-- String-level wrapper for the annotation-stripping regex substitution. -/
def reSubParen (s : String) : String := String.mk (stripPar s.data)

/-- Embedding of Python `str.split(',')` (note `''.split(',') == ['']`). -/
def splitCommaAux : List Char → List Char → List String
  | [], acc => [String.mk acc.reverse]
  | c :: rest, acc =>
    if c = ',' then String.mk acc.reverse :: splitCommaAux rest []
    else splitCommaAux rest (c :: acc)

def splitComma (s : String) : List String := splitCommaAux s.data []

/-- Embeds `_create_default_host_flags_dict`: all eight canonical flags set
to default, `consistent_lun` disabled. -/
def create_default_host_flags_dict : FlagsDict :=
  disable_consistent_lun
    (host_flags_list.foldl (fun d flag => set_to_default flag d) [])

/-- The remote host record returned by `provisioning.get_host`, restricted
to the fields the module reads: `hostId`, `initiator`, the free-text
`enabled_flags` / `disabled_flags` reports, `consistent_lun`, and the
masking-view association list (spec section 3, HostRecord). -/
structure HostRec where
  hostId : String
  initiator : List String
  enabled_flags : String
  disabled_flags : String
  consistent_lun : Bool
  maskingview : List String
deriving DecidableEq, Repr

/-- Embeds `_recreate_host_flag_dict`: default dict, then enable every
(annotation-stripped) name in the comma-separated enabled list, then
disable every such name in the disabled list, then copy `consistent_lun`. -/
def recreate_host_flag_dict (host : HostRec) : FlagsDict :=
  let current := create_default_host_flags_dict
  let current := (splitComma host.enabled_flags).foldl
    (fun d flag => if 0 < flag.length then set_to_enable (reSubParen flag) d else d)
    current
  let current := (splitComma host.disabled_flags).foldl
    (fun d flag => if 0 < flag.length then set_to_disable (reSubParen flag) d else d)
    current
  if host.consistent_lun = false then disable_consistent_lun current
  else enable_consistent_lun current

/-- The flag names contributed by the remote `enabled_flags` report: each
nonempty comma-separated entry, annotation-stripped and lowercased (used in
theorem statements about `_recreate_host_flag_dict`). -/
def enabled_report_names (host : HostRec) : List String :=
  ((splitComma host.enabled_flags).filter (fun f => 0 < f.length)).map
    (fun f => strLower (reSubParen f))

/-- The flag names contributed by the remote `disabled_flags` report. -/
def disabled_report_names (host : HostRec) : List String :=
  ((splitComma host.disabled_flags).filter (fun f => 0 < f.length)).map
    (fun f => strLower (reSubParen f))

/-- The per-key body of the loop in `modify_host_flags` that overlays the
received raw flags on the baseline dict. -/
def overlay_step (d : FlagsDict) (q : String × RawValue) : FlagsDict :=
  if q.1 ≠ "consistent_lun" then
    if q.2 = RawValue.bool true ∨ q.2 = RawValue.str "True" ∨
        q.2 = RawValue.str "true" then
      set_to_enable q.1 d
    else if q.2 = RawValue.bool false ∨ q.2 = RawValue.str "false" ∨
        q.2 = RawValue.str "False" then
      set_to_disable q.1 d
    else
      set_to_default q.1 d
  else
    if q.2 = RawValue.bool false ∨ q.2 = RawValue.str "False" ∨
        q.2 = RawValue.str "false" ∨ q.2 = RawValue.str "unset" ∨
        q.2 = RawValue.str "Unset" then
      disable_consistent_lun d
    else
      enable_consistent_lun d

/-- The overlay loop of `modify_host_flags`: fold the received raw flag
entries over the (deep copy of the) baseline dict. -/
def new_flags_of (current : FlagsDict) (received : List (String × RawValue)) :
    FlagsDict :=
  received.foldl overlay_step current

/-- Characterization of the modify-path per-value rule (used in theorem
statements): recognized true synonyms enable, recognized false synonyms
disable, anything else defaults. -/
def overlay_rule (v : RawValue) : FlagState :=
  if v = RawValue.bool true ∨ v = RawValue.str "True" ∨ v = RawValue.str "true" then
    FlagState.Enabled
  else if v = RawValue.bool false ∨ v = RawValue.str "false" ∨
      v = RawValue.str "False" then
    FlagState.Disabled
  else
    FlagState.Default

/-- Embeds `_get_add_initiators`: `list(set(existing + requested) -
set(existing))` (result order is arbitrary in Python; the element set is
what matters and is what the theorems are about). -/
def get_add_initiators (existing requested : List String) : List String :=
  ((existing ++ requested).dedup).filter (fun x => x ∉ existing)

/-- Embeds `_get_remove_initiators`:
`list(set(existing).intersection(set(requested)))`. -/
def get_remove_initiators (existing requested : List String) : List String :=
  (existing.dedup).filter (fun x => x ∈ requested)

/-- Fault injection for the external gateway (spec section 6: every gateway
operation may return `error`).  `cause` is the exception text `str(e)`.
`failFetch` covers any exception inside `get_host` (transport,
authentication, or genuine not-found). -/
structure Faults where
  failFetch : Bool
  failCreate : Bool
  failAdd : Bool
  failRemove : Bool
  failModify : Bool
  failRename : Bool
  failDelete : Bool
  cause : String
deriving DecidableEq, Repr

/-- Fault-free gateway. -/
def noFaults : Faults := ⟨false, false, false, false, false, false, false, ""⟩

/-- One gateway call issued during a run (the observable trace). -/
inductive Call where
  | fetch (name : String)
  | create (name : String) (initiators : Option (List String))
      (flags : Option FlagsDict)
  | addInits (name : String) (inits : List String)
  | removeInits (name : String) (inits : List String)
  | setFlags (name : String) (flags : FlagsDict)
  | rename (name newName : String)
  | delete (name : String)
deriving DecidableEq, Repr

/-- Content of a surfaced fatal failure (`show_error_exit` /
`module.fail_json`): the operation named in the message, the host named in
the message, and the underlying cause `str(e)`. -/
structure ErrInfo where
  op : String
  host : String
  cause : String
deriving DecidableEq, Repr

/-- Modelled from the spec: the RemoteHostGateway state (section 6) — the
remote system's hosts keyed by name — together with injectable faults and
the trace of gateway calls issued so far. -/
structure World where
  remote : List (String × HostRec)
  faults : Faults
  calls : List Call
deriving DecidableEq, Repr

def logCall (w : World) (c : Call) : World := { w with calls := w.calls ++ [c] }

/-- The module parameters relevant to `perform_module_operation`. -/
structure Params where
  host_name : String
  initiators : Option (List String)
  state : String
  initiator_state : Option String
  host_flags : Option (List (String × RawValue))
  new_name : Option String
deriving DecidableEq, Repr

/-- Python truthiness of an optional string (None and '' are falsy). -/
def truthyStr : Option String → Bool
  | none => false
  | some s => s ≠ ""

/-- Python truthiness of an optional list (None and [] are falsy). -/
def truthyList : Option (List String) → Bool
  | none => false
  | some l => !l.isEmpty

/-- Python truthiness of an optional dict (None and {} are falsy). -/
def truthyDict : Option (List (String × RawValue)) → Bool
  | none => false
  | some d => !d.isEmpty

/-- The module's result record: `{'changed': ..., 'host_details': ...}`.
`host_details = none` stands for both the empty dict `{}` (absent branch)
and a `None` returned by `get_host`. -/
structure ResultDict where
  changed : Bool
  host_details : Option HostRec
deriving DecidableEq, Repr

/-- Embeds `get_host`: any exception (modelled by `failFetch`) is caught,
logged, and turned into `None`; otherwise the remote record, if any. -/
def get_host (w0 : World) (host_name : String) : Option HostRec × World :=
  let w := logCall w0 (Call.fetch host_name)
  if w.faults.failFetch then (none, w)
  else (alookup host_name w.remote, w)

/-- The initiator list resolved by `create_host`:
`if (initiator_state == 'absent-in-host' or initiator_state is None):
initiators = None`. -/
def create_initiators_resolved (p : Params) : Option (List String) :=
  if p.initiator_state = some "absent-in-host" ∨ p.initiator_state = none then none
  else p.initiators

/-- The flag payload resolved by `create_host`: normalize via
`_create_host_flags_dict` when `host_flags` is truthy, else `None`. -/
def create_flags_resolved (p : Params) : Option FlagsDict :=
  if truthyDict p.host_flags then
    some (create_host_flags_dict (p.host_flags.getD []))
  else none

/-- Modelled from the spec: the gateway's `Create` simply records the new
host (flag serialization back into the free-text report is not modelled;
no claim depends on it). -/
def remote_create (host_name : String) (inits : Option (List String)) (w : World) :
    World :=
  { w with remote :=
      (host_name, ⟨host_name, inits.getD [], "", "", false, []⟩) :: w.remote }

/-- Embeds `create_host`: resolve initiators and flags, issue the create
call; a gateway failure is surfaced via `show_error_exit` with the
operation, host and cause. -/
def create_host (p : Params) (host_name : String) (w0 : World) :
    Except ErrInfo Bool × World :=
  let inits := create_initiators_resolved p
  let flags := create_flags_resolved p
  let w := logCall w0 (Call.create host_name inits flags)
  if w.faults.failCreate then
    (Except.error ⟨"Create host", host_name, w.faults.cause⟩, w)
  else
    (Except.ok true, remote_create host_name inits w)

/-- Modelled from the spec: gateway `AddInitiators` appends to the host's
initiator list. -/
def remote_add_inits (host_name : String) (adds : List String) (w : World) : World :=
  { w with remote := w.remote.map fun q =>
      if q.1 = host_name then (q.1, { q.2 with initiator := q.2.initiator ++ adds })
      else q }

/-- Modelled from the spec: gateway `RemoveInitiators` filters the host's
initiator list. -/
def remote_remove_inits (host_name : String) (rems : List String) (w : World) :
    World :=
  { w with remote := w.remote.map fun q =>
      if q.1 = host_name then
        (q.1, { q.2 with initiator := q.2.initiator.filter (fun x => x ∉ rems) })
      else q }

/-- Modelled from the spec: gateway `Rename` rekeys the host record. -/
def remote_rename (old_name nn : String) (w : World) : World :=
  { w with remote := w.remote.map fun q =>
      if q.1 = old_name then (nn, { q.2 with hostId := nn }) else q }

/-- Modelled from the spec: gateway `Delete` removes the record. -/
def remote_delete (host_name : String) (w : World) : World :=
  { w with remote := w.remote.filter fun q => q.1 ≠ host_name }

/-- Embeds `add_host_initiators`: re-fetch, no-op when the requested
initiators are already a subset of the existing ones, otherwise diff and
issue the add mutation (fatal on failure). -/
def add_host_initiators (host_name : String) (initiators : List String)
    (w0 : World) : Except ErrInfo Bool × World :=
  let gr := get_host w0 host_name
  let existing := match gr.1 with
    | some h => h.initiator
    | none => []
  if initiators ≠ [] ∧ (∀ x ∈ initiators, x ∈ existing) then
    (Except.ok false, gr.2)
  else
    let add_list := get_add_initiators existing initiators
    if 0 < add_list.length then
      let w := logCall gr.2 (Call.addInits host_name add_list)
      if w.faults.failAdd then
        (Except.error ⟨"Adding initiators", host_name, w.faults.cause⟩, w)
      else (Except.ok true, remote_add_inits host_name add_list w)
    else (Except.ok false, gr.2)

/-- Embeds `remove_host_initiators`: re-fetch, no-op when no initiators are
present, otherwise intersect and issue the remove mutation (fatal on
failure). -/
def remove_host_initiators (host_name : String) (initiators : List String)
    (w0 : World) : Except ErrInfo Bool × World :=
  let gr := get_host w0 host_name
  let existing := match gr.1 with
    | some h => h.initiator
    | none => []
  if existing = [] then (Except.ok false, gr.2)
  else
    let remove_list := get_remove_initiators existing initiators
    if 0 < remove_list.length then
      let w := logCall gr.2 (Call.removeInits host_name remove_list)
      if w.faults.failRemove then
        (Except.error ⟨"Removing initiators", host_name, w.faults.cause⟩, w)
      else (Except.ok true, remote_remove_inits host_name remove_list w)
    else (Except.ok false, gr.2)

/-- Embeds `rename_host` (fatal on failure). -/
def rename_host (host_name nn : String) (w0 : World) :
    Except ErrInfo Bool × World :=
  let w := logCall w0 (Call.rename host_name nn)
  if w.faults.failRename then
    (Except.error ⟨"Renaming of host", host_name, w.faults.cause⟩, w)
  else (Except.ok true, remote_rename host_name nn w)

/-- Python dict content equality for the flags payload (`==` on dicts
compares key sets and values, not insertion order). -/
def flags_eq (a b : FlagsDict) : Bool :=
  (a.all fun q => alookup q.1 b = some q.2) &&
  (b.all fun q => alookup q.1 a = some q.2)

/-- Embeds `modify_host_flags`: rebuild the baseline from a fresh fetch,
overlay the received raw flags, compare, and issue the set-flags mutation
only on a difference (fatal on failure).  A `None` fetch would make the
Python subscript `host['enabled_flags']` raise an uncaught `TypeError`,
aborting the module; that crash path is modelled as an error. -/
def modify_host_flags (host_name : String)
    (received : List (String × RawValue)) (w0 : World) :
    Except ErrInfo Bool × World :=
  let gr := get_host w0 host_name
  match gr.1 with
  | none => (Except.error ⟨"TypeError", host_name, "NoneType is not subscriptable"⟩, gr.2)
  | some host =>
    let current := recreate_host_flag_dict host
    let new_flags := new_flags_of current received
    if flags_eq new_flags current then (Except.ok false, gr.2)
    else
      let w := logCall gr.2 (Call.setFlags host_name new_flags)
      if w.faults.failModify then
        (Except.error ⟨"Modify host", host_name, w.faults.cause⟩, w)
      else (Except.ok true, w)

/-- Embeds `delete_host`.  The masking-view rejection is modelled from the
spec (section 6: `Delete(name)` fails if the host is referenced by a
masking view); the surfacing of the failure embeds the source's
`except` clause and `show_error_exit`. -/
def delete_host (host_name : String) (w0 : World) : Except ErrInfo Bool × World :=
  let w := logCall w0 (Call.delete host_name)
  match alookup host_name w.remote with
  | some h =>
    if h.maskingview ≠ [] then
      (Except.error ⟨"Delete host", host_name, "host is part of a masking view"⟩, w)
    else if w.faults.failDelete then
      (Except.error ⟨"Delete host", host_name, w.faults.cause⟩, w)
    else (Except.ok true, remote_delete host_name w)
  | none =>
    if w.faults.failDelete then
      (Except.error ⟨"Delete host", host_name, w.faults.cause⟩, w)
    else (Except.ok true, w)

/-- Embeds `_create_result_dict`: empty details when the desired state is
absent, otherwise a final snapshot fetched under `new_name` when that
parameter is truthy, else under `host_name`. -/
def create_result_dict (p : Params) (changed : Bool) (w : World) :
    ResultDict × World :=
  if p.state = "absent" then ({ changed := changed, host_details := none }, w)
  else
    match p.new_name with
    | some nn =>
      if nn ≠ "" then
        let gr := get_host w nn
        ({ changed := changed, host_details := gr.1 }, gr.2)
      else
        let gr := get_host w p.host_name
        ({ changed := changed, host_details := gr.1 }, gr.2)
    | none =>
      let gr := get_host w p.host_name
      ({ changed := changed, host_details := gr.1 }, gr.2)

/-- The name `_create_result_dict` fetches the final snapshot under (used
in theorem statements). -/
def resultFetchName (p : Params) : String :=
  match p.new_name with
  | some nn => if nn ≠ "" then nn else p.host_name
  | none => p.host_name

/-- `changed = step_result or changed` accumulation used by steps 2, 3, 4
and 6 of `perform_module_operation`. -/
def orChanged (changed : Bool) (r : Except ErrInfo Bool × World) :
    Except ErrInfo Bool × World :=
  match r.1 with
  | Except.error e => (Except.error e, r.2)
  | Except.ok b => (Except.ok (b || changed), r.2)

/-- Step 1 of `perform_module_operation`: create when the host is absent,
desired state present, and the name truthy. -/
def step1 (p : Params) (host : Option HostRec) (w : World) :
    Except ErrInfo Bool × World :=
  if p.state = "present" ∧ host = none ∧ p.host_name ≠ "" then
    create_host p p.host_name w
  else (Except.ok false, w)

/-- Step 2: add initiators. -/
def step2 (p : Params) (host : Option HostRec) (changed : Bool) (w : World) :
    Except ErrInfo Bool × World :=
  if p.state = "present" ∧ host.isSome ∧
      p.initiator_state = some "present-in-host" ∧ truthyList p.initiators then
    orChanged changed (add_host_initiators p.host_name (p.initiators.getD []) w)
  else (Except.ok changed, w)

/-- Step 3: remove initiators. -/
def step3 (p : Params) (host : Option HostRec) (changed : Bool) (w : World) :
    Except ErrInfo Bool × World :=
  if p.state = "present" ∧ host.isSome ∧
      p.initiator_state = some "absent-in-host" ∧ truthyList p.initiators then
    orChanged changed (remove_host_initiators p.host_name (p.initiators.getD []) w)
  else (Except.ok changed, w)

/-- Step 4: modify host flags. -/
def step4 (p : Params) (host : Option HostRec) (changed : Bool) (w : World) :
    Except ErrInfo Bool × World :=
  if p.state = "present" ∧ host.isSome ∧ truthyDict p.host_flags then
    orChanged changed (modify_host_flags p.host_name (p.host_flags.getD []) w)
  else (Except.ok changed, w)

/-- Step 5: rename (note the source overwrites `changed` with the rename
result rather than or-ing it). -/
def step5 (p : Params) (host : Option HostRec) (changed : Bool) (w : World) :
    Except ErrInfo Bool × World :=
  if p.state = "present" ∧ host.isSome ∧ truthyStr p.new_name then
    match host with
    | some h =>
      if h.hostId ≠ p.new_name.getD "" then
        rename_host p.host_name (p.new_name.getD "") w
      else (Except.ok changed, w)
    | none => (Except.ok changed, w)
  else (Except.ok changed, w)

/-- Step 6: delete. -/
def step6 (p : Params) (host : Option HostRec) (changed : Bool) (w : World) :
    Except ErrInfo Bool × World :=
  if p.state = "absent" ∧ host.isSome then
    orChanged changed (delete_host p.host_name w)
  else (Except.ok changed, w)

/-- Sequencing of steps: a fatal error (`show_error_exit`) aborts the run,
skipping every later step. -/
def bindStep (r : Except ErrInfo Bool × World)
    (k : Bool → World → Except ErrInfo ResultDict × World) :
    Except ErrInfo ResultDict × World :=
  match r.1 with
  | Except.error e => (Except.error e, r.2)
  | Except.ok changed => k changed r.2

/-- Embeds `perform_module_operation`: fetch, then the six guarded steps in
source order, then `_create_result_dict`. -/
def perform_module_operation (p : Params) (w0 : World) :
    Except ErrInfo ResultDict × World :=
  let gr := get_host w0 p.host_name
  let host := gr.1
  bindStep (step1 p host gr.2) fun c1 w =>
  bindStep (step2 p host c1 w) fun c2 w =>
  bindStep (step3 p host c2 w) fun c3 w =>
  bindStep (step4 p host c3 w) fun c4 w =>
  bindStep (step5 p host c4 w) fun c5 w =>
  bindStep (step6 p host c5 w) fun c6 w =>
    let rw := create_result_dict p c6 w
    (Except.ok rw.1, rw.2)

/-! ### Association-list lemmas -/

theorem alookup_map_write {α : Type} (k : String) (v : α) (d : List (String × α))
    (hany : d.any (fun q => q.1 = k) = true) :
    alookup k (d.map (fun q => if q.1 = k then (k, v) else q)) = some v := by
  induction d with
  | nil => simp at hany
  | cons q rest ih =>
    by_cases hq : q.1 = k
    · simp [alookup, hq]
    · simp only [List.any_cons, Bool.or_eq_true, decide_eq_true_eq] at hany
      rcases hany with h | h
      · exact absurd h hq
      · simp only [List.map_cons, if_neg hq, alookup, hq, if_false]
        exact ih h

theorem alookup_append_new {α : Type} (k : String) (v : α) (d : List (String × α))
    (hnone : ¬ d.any (fun q => q.1 = k) = true) :
    alookup k (d ++ [(k, v)]) = some v := by
  induction d with
  | nil => simp [alookup]
  | cons q rest ih =>
    simp only [List.any_cons, Bool.or_eq_true, decide_eq_true_eq, not_or] at hnone
    simp only [List.cons_append, alookup, if_neg hnone.1]
    exact ih (by simpa using hnone.2)

theorem alookup_ainsert_self {α : Type} (k : String) (v : α) (d : List (String × α)) :
    alookup k (ainsert k v d) = some v := by
  unfold ainsert
  split
  · next hany => exact alookup_map_write k v d hany
  · next hany => exact alookup_append_new k v d hany

theorem alookup_map_write_ne {α : Type} {k k' : String} (v : α)
    (d : List (String × α)) (h : k' ≠ k) :
    alookup k' (d.map (fun q => if q.1 = k then (k, v) else q)) = alookup k' d := by
  induction d with
  | nil => rfl
  | cons q rest ih =>
    by_cases hq : q.1 = k
    · have hq' : ¬ q.1 = k' := fun hh => h (hh.symm.trans hq)
      simp only [List.map_cons, if_pos hq, alookup, if_neg (fun hh : k = k' => h hh.symm),
        if_neg hq']
      exact ih
    · simp only [List.map_cons, if_neg hq, alookup]
      split
      · rfl
      · exact ih

theorem alookup_append_ne {α : Type} {k k' : String} (v : α)
    (d : List (String × α)) (h : k' ≠ k) :
    alookup k' (d ++ [(k, v)]) = alookup k' d := by
  induction d with
  | nil => simp [alookup, if_neg (fun hh : k = k' => h hh.symm)]
  | cons q rest ih =>
    simp only [List.cons_append, alookup]
    split
    · rfl
    · exact ih

theorem alookup_ainsert_ne {α : Type} {k k' : String} (v : α) (d : List (String × α))
    (h : k' ≠ k) : alookup k' (ainsert k v d) = alookup k' d := by
  unfold ainsert
  split
  · exact alookup_map_write_ne v d h
  · exact alookup_append_ne v d h

theorem akeys_ainsert_mem {α : Type} {k : String} (v : α) {d : List (String × α)}
    (h : k ∈ akeys d) : akeys (ainsert k v d) = akeys d := by
  have hany : d.any (fun q => q.1 = k) = true := by
    simp only [akeys, List.mem_map] at h
    rcases h with ⟨q, hq, hk⟩
    simp only [List.any_eq_true, decide_eq_true_eq]
    exact ⟨q, hq, hk⟩
  unfold ainsert
  rw [if_pos hany]
  simp only [akeys, List.map_map]
  apply List.map_congr_left
  intro q _
  by_cases hq : q.1 = k
  · simp [hq, Function.comp]
  · simp [hq, Function.comp]

theorem akeys_ainsert_notmem {α : Type} {k : String} (v : α) {d : List (String × α)}
    (h : k ∉ akeys d) : akeys (ainsert k v d) = akeys d ++ [k] := by
  have hany : d.any (fun q => q.1 = k) = false := by
    simp only [List.any_eq_false, decide_eq_true_eq]
    intro q hq hk
    exact h (by simp only [akeys, List.mem_map]; exact ⟨q, hq, hk⟩)
  unfold ainsert
  rw [if_neg (by simp [hany])]
  simp [akeys]

/-! ### Basic facts about the flag names -/

theorem host_flags_list_lower : ∀ n ∈ host_flags_list, strLower n = n := by decide

theorem host_flags_list_nodup : host_flags_list.Nodup := by decide

theorem host_flags_list_ne_clun : ∀ n ∈ host_flags_list, n ≠ "consistent_lun" := by
  decide

theorem strLower_clun : strLower "consistent_lun" = "consistent_lun" := by decide

theorem flag_names_lower :
    ∀ n ∈ host_flags_list ++ ["consistent_lun"], strLower n = n := by decide

/-! ### Overlay (`modify_host_flags` loop) characterization -/

theorem overlay_step_ne {d : FlagsDict} {q : String × RawValue} {k : String}
    (h : strLower q.1 ≠ k) :
    alookup k (overlay_step d q) = alookup k d := by
  unfold overlay_step
  by_cases h1 : q.1 ≠ "consistent_lun"
  · rw [if_pos h1]
    split_ifs <;>
      simp [set_to_enable, set_to_disable, set_to_default,
        alookup_ainsert_ne _ _ (Ne.symm h)]
  · rw [if_neg h1]
    push_neg at h1
    have hk : "consistent_lun" ≠ k := by
      rw [← strLower_clun, ← h1]
      exact h
    split_ifs <;>
      simp [disable_consistent_lun, enable_consistent_lun,
        alookup_ainsert_ne _ _ (Ne.symm hk)]

theorem overlay_frame (received : List (String × RawValue)) :
    ∀ (d : FlagsDict) (k : String), (∀ q ∈ received, strLower q.1 ≠ k) →
      alookup k (new_flags_of d received) = alookup k d := by
  induction received with
  | nil => intro d k _; rfl
  | cons q rest ih =>
    intro d k hk
    have hq : strLower q.1 ≠ k := hk q (List.mem_cons_self q rest)
    have hrest : ∀ p ∈ rest, strLower p.1 ≠ k :=
      fun p hp => hk p (List.mem_cons_of_mem q hp)
    show alookup k (new_flags_of (overlay_step d q) rest) = alookup k d
    rw [ih (overlay_step d q) k hrest]
    exact overlay_step_ne hq

theorem overlay_step_lookup_self {d : FlagsDict} {flag : String} {v : RawValue}
    (h : flag ≠ "consistent_lun") :
    alookup (strLower flag) (overlay_step d (flag, v))
      = some (FlagValue.state (overlay_rule v)) := by
  unfold overlay_step overlay_rule
  rw [if_pos h]
  split_ifs <;>
    simp [set_to_enable, set_to_disable, set_to_default, alookup_ainsert_self]

theorem overlay_mem_lookup (received : List (String × RawValue)) :
    ∀ (d : FlagsDict) (flag : String) (v : RawValue),
      (received.map (fun q => strLower q.1)).Nodup →
      (flag, v) ∈ received → flag ≠ "consistent_lun" →
      alookup (strLower flag) (new_flags_of d received)
        = some (FlagValue.state (overlay_rule v)) := by
  induction received with
  | nil => intro d flag v _ hmem _; simp at hmem
  | cons q rest ih =>
    intro d flag v hnd hmem hcl
    simp only [List.map_cons, List.nodup_cons] at hnd
    rcases List.mem_cons.mp hmem with heq | hmem'
    · subst heq
      have hrest : ∀ p ∈ rest, strLower p.1 ≠ strLower flag := by
        intro p hp he
        exact hnd.1 (by simpa [he] using List.mem_map_of_mem (fun r => strLower r.1) hp)
      show alookup (strLower flag)
        (new_flags_of (overlay_step d (flag, v)) rest)
        = some (FlagValue.state (overlay_rule v))
      rw [overlay_frame rest (overlay_step d (flag, v)) (strLower flag) hrest]
      exact overlay_step_lookup_self hcl
    · exact ih (overlay_step d q) flag v hnd.2 hmem' hcl

theorem overlay_step_keys {d : FlagsDict} {q : String × RawValue}
    (h : strLower q.1 ∈ akeys d) :
    akeys (overlay_step d q) = akeys d := by
  unfold overlay_step
  by_cases h1 : q.1 ≠ "consistent_lun"
  · rw [if_pos h1]
    split_ifs <;>
      simp [set_to_enable, set_to_disable, set_to_default, akeys_ainsert_mem _ h]
  · rw [if_neg h1]
    push_neg at h1
    have hcl : "consistent_lun" ∈ akeys d := by
      rw [← strLower_clun, ← h1]
      exact h
    split_ifs <;>
      simp [disable_consistent_lun, enable_consistent_lun, akeys_ainsert_mem _ hcl]

theorem overlay_keys_frame (received : List (String × RawValue)) :
    ∀ (d : FlagsDict), (∀ q ∈ received, strLower q.1 ∈ akeys d) →
      akeys (new_flags_of d received) = akeys d := by
  induction received with
  | nil => intro d _; rfl
  | cons q rest ih =>
    intro d hk
    have hstep : akeys (overlay_step d q) = akeys d :=
      overlay_step_keys (hk q (List.mem_cons_self q rest))
    show akeys (new_flags_of (overlay_step d q) rest) = akeys d
    rw [ih (overlay_step d q)
      (fun p hp => by rw [hstep]; exact hk p (List.mem_cons_of_mem q hp))]
    exact hstep

/-! ### Create-path (`_create_host_flags_dict` loop) characterization -/

theorem chfd_step_ne (received : List (String × RawValue))
    {d : FlagsDict} {n k : String} (h : strLower n ≠ k) :
    alookup k (chfd_step received d n) = alookup k d := by
  unfold chfd_step
  split_ifs <;>
    simp [set_to_enable, set_to_disable, set_to_default,
      alookup_ainsert_ne _ _ (Ne.symm h)]

theorem chfd_step_lookup_self (received : List (String × RawValue))
    {d : FlagsDict} {n : String} :
    alookup (strLower n) (chfd_step received d n)
      = some (FlagValue.state (norm_flag_rule received n)) := by
  unfold chfd_step norm_flag_rule
  split_ifs <;>
    simp [set_to_enable, set_to_disable, set_to_default, alookup_ainsert_self]

theorem chfd_fold_lookup_mem (received : List (String × RawValue)) :
    ∀ (names : List String) (d : FlagsDict) (name : String),
      (∀ n ∈ names, strLower n = n) → names.Nodup → name ∈ names →
      alookup name (names.foldl (chfd_step received) d)
        = some (FlagValue.state (norm_flag_rule received name)) := by
  intro names
  induction names with
  | nil => intro d name _ _ hmem; simp at hmem
  | cons n rest ih =>
    intro d name hlow hnd hmem
    simp only [List.nodup_cons] at hnd
    rcases List.mem_cons.mp hmem with heq | hmem'
    · subst heq
      have hfr : ∀ m ∈ rest, strLower m ≠ name := by
        intro m hm he
        have : m = name := (hlow m (List.mem_cons_of_mem name hm)).symm.trans he
        exact hnd.1 (this ▸ hm)
      show alookup name (rest.foldl (chfd_step received) (chfd_step received d name))
        = some (FlagValue.state (norm_flag_rule received name))
      have hframe : ∀ (rest' : List String) (d' : FlagsDict),
          (∀ m ∈ rest', strLower m ≠ name) →
          alookup name (rest'.foldl (chfd_step received) d')
            = alookup name d' := by
        intro rest'
        induction rest' with
        | nil => intro d' _; rfl
        | cons m tail ihm =>
          intro d' hne
          show alookup name (tail.foldl (chfd_step received) (chfd_step received d' m))
            = alookup name d'
          rw [ihm (chfd_step received d' m)
            (fun t ht => hne t (List.mem_cons_of_mem m ht))]
          exact chfd_step_ne received (hne m (List.mem_cons_self m tail))
      rw [hframe rest (chfd_step received d name) hfr]
      have := chfd_step_lookup_self received (d := d) (n := name)
      rwa [hlow name (List.mem_cons_self name rest)] at this
    · exact ih (chfd_step received d n) name
        (fun m hm => hlow m (List.mem_cons_of_mem n hm)) hnd.2 hmem'

theorem chfd_step_keys (received : List (String × RawValue)) {d : FlagsDict}
    {n : String} (h : strLower n ∉ akeys d) :
    akeys (chfd_step received d n) = akeys d ++ [strLower n] := by
  unfold chfd_step
  split_ifs <;>
    simp [set_to_enable, set_to_disable, set_to_default, akeys_ainsert_notmem _ h]

theorem chfd_fold_keys (received : List (String × RawValue)) :
    ∀ (names : List String) (d : FlagsDict),
      (∀ n ∈ names, strLower n = n) → names.Nodup →
      (∀ n ∈ names, n ∉ akeys d) →
      akeys (names.foldl (chfd_step received) d) = akeys d ++ names := by
  intro names
  induction names with
  | nil => intro d _ _ _; simp
  | cons n rest ih =>
    intro d hlow hnd hnew
    simp only [List.nodup_cons] at hnd
    have hlown : strLower n = n := hlow n (List.mem_cons_self n rest)
    have hkeys : akeys (chfd_step received d n) = akeys d ++ [n] := by
      have h1 := chfd_step_keys received (d := d) (n := n)
        (by rw [hlown]; exact hnew n (List.mem_cons_self n rest))
      rwa [hlown] at h1
    show akeys (rest.foldl (chfd_step received) (chfd_step received d n))
      = akeys d ++ n :: rest
    rw [ih (chfd_step received d n)
      (fun m hm => hlow m (List.mem_cons_of_mem n hm)) hnd.2
      (fun m hm => by
        rw [hkeys]
        simp only [List.mem_append, List.mem_singleton, not_or]
        exact ⟨hnew m (List.mem_cons_of_mem n hm),
          fun he => hnd.1 (he ▸ hm)⟩)]
    rw [hkeys]
    simp

/-! ### Remote-report (`_recreate_host_flag_dict` loops) characterization -/

theorem report_fold_lookup (v0 : FlagValue) (st : String → FlagsDict → FlagsDict)
    (hst : ∀ n d, st n d = ainsert (strLower n) v0 d) :
    ∀ (entries : List String) (d : FlagsDict) (k : String),
      alookup k ((entries.foldl
          (fun d flag => if 0 < flag.length then st (reSubParen flag) d else d) d))
      = if entries.any (fun f => decide (0 < f.length) && (strLower (reSubParen f) == k))
        then some v0 else alookup k d := by
  intro entries
  induction entries with
  | nil => intro d k; simp
  | cons f rest ih =>
    intro d k
    have hhead : alookup k (if 0 < f.length then st (reSubParen f) d else d)
        = if (decide (0 < f.length) && (strLower (reSubParen f) == k)) = true
          then some v0 else alookup k d := by
      by_cases hl : 0 < f.length
      · rw [if_pos hl, hst]
        by_cases hk : strLower (reSubParen f) = k
        · rw [if_pos (by simp [hl, hk])]
          rw [hk]
          exact alookup_ainsert_self k v0 d
        · rw [if_neg (by simp [hk])]
          exact alookup_ainsert_ne _ _ (Ne.symm hk)
      · rw [if_neg hl, if_neg (by simp [hl])]
    show alookup k ((rest.foldl _
        (if 0 < f.length then st (reSubParen f) d else d))) = _
    rw [ih, hhead]
    simp only [List.any_cons]
    by_cases hr : rest.any
        (fun f => decide (0 < f.length) && (strLower (reSubParen f) == k)) = true
    · simp [hr]
    · simp only [Bool.not_eq_true] at hr
      simp [hr]

theorem report_fold_keys (v0 : FlagValue) (st : String → FlagsDict → FlagsDict)
    (hst : ∀ n d, st n d = ainsert (strLower n) v0 d) :
    ∀ (entries : List String) (d : FlagsDict),
      (∀ f ∈ entries, 0 < f.length → strLower (reSubParen f) ∈ akeys d) →
      akeys ((entries.foldl
          (fun d flag => if 0 < flag.length then st (reSubParen flag) d else d) d))
        = akeys d := by
  intro entries
  induction entries with
  | nil => intro d _; rfl
  | cons f rest ih =>
    intro d hmem
    have hstep : akeys (if 0 < f.length then st (reSubParen f) d else d)
        = akeys d := by
      split_ifs with hl
      · rw [hst]
        exact akeys_ainsert_mem _ (hmem f (List.mem_cons_self f rest) hl)
      · rfl
    show akeys ((rest.foldl _ (if 0 < f.length then st (reSubParen f) d else d))) = _
    rw [ih _ (fun g hg hgl => by
      rw [hstep]; exact hmem g (List.mem_cons_of_mem f hg) hgl)]
    exact hstep

/-! ### `_create_host_flags_dict` top-level characterization -/

theorem create_host_flags_dict_lookup (received : List (String × RawValue))
    (name : String) (h : name ∈ host_flags_list) :
    alookup name (create_host_flags_dict received)
      = some (FlagValue.state (norm_flag_rule received name)) := by
  have hne : name ≠ "consistent_lun" := host_flags_list_ne_clun name h
  have hbase : alookup name (host_flags_list.foldl (chfd_step received) [])
      = some (FlagValue.state (norm_flag_rule received name)) :=
    chfd_fold_lookup_mem received host_flags_list [] name
      host_flags_list_lower host_flags_list_nodup h
  unfold create_host_flags_dict
  split_ifs <;>
    simp only [disable_consistent_lun, enable_consistent_lun] <;>
    rw [alookup_ainsert_ne _ _ hne] <;> exact hbase

theorem create_host_flags_dict_clun (received : List (String × RawValue)) :
    alookup "consistent_lun" (create_host_flags_dict received)
      = some (FlagValue.boolean (clun_rule received)) := by
  unfold create_host_flags_dict clun_rule
  split_ifs <;>
    simp [disable_consistent_lun, enable_consistent_lun, alookup_ainsert_self]

theorem create_host_flags_dict_keys (received : List (String × RawValue)) :
    akeys (create_host_flags_dict received) = host_flags_list ++ ["consistent_lun"] := by
  have hfold : akeys (host_flags_list.foldl (chfd_step received) [])
      = host_flags_list := by
    have := chfd_fold_keys received host_flags_list []
      host_flags_list_lower host_flags_list_nodup (by intro n _ hn; simp [akeys] at hn)
    simpa using this
  have hnm : "consistent_lun"
      ∉ akeys (host_flags_list.foldl (chfd_step received) []) := by
    rw [hfold]
    decide
  unfold create_host_flags_dict
  split_ifs <;>
    simp only [disable_consistent_lun, enable_consistent_lun] <;>
    rw [akeys_ainsert_notmem _ hnm, hfold]

/-! ### `_recreate_host_flag_dict` top-level characterization -/

theorem default_dict_lookup :
    ∀ n ∈ host_flags_list,
      alookup n create_default_host_flags_dict
        = some (FlagValue.state FlagState.Default) := by
  decide

theorem default_dict_keys :
    akeys create_default_host_flags_dict = host_flags_list ++ ["consistent_lun"] := by
  decide

theorem report_names_mem_iff (entries : List String) (name : String) :
    (name ∈ (entries.filter (fun f => 0 < f.length)).map (fun f => strLower (reSubParen f)))
    ↔ (entries.any (fun f => decide (0 < f.length) && (strLower (reSubParen f) == name))
        = true) := by
  simp only [List.mem_map, List.mem_filter, List.any_eq_true, Bool.and_eq_true,
    decide_eq_true_eq, beq_iff_eq]
  constructor
  · rintro ⟨f, ⟨hf, hl⟩, he⟩
    exact ⟨f, hf, hl, he⟩
  · rintro ⟨f, hf, hl, he⟩
    exact ⟨f, ⟨hf, hl⟩, he⟩

theorem recreate_lookup (host : HostRec) (name : String)
    (h : name ∈ host_flags_list) :
    alookup name (recreate_host_flag_dict host)
      = if name ∈ disabled_report_names host then some (FlagValue.state FlagState.Disabled)
        else if name ∈ enabled_report_names host then some (FlagValue.state FlagState.Enabled)
        else some (FlagValue.state FlagState.Default) := by
  have hne : name ≠ "consistent_lun" := host_flags_list_ne_clun name h
  simp only [recreate_host_flag_dict]
  have hfin : ∀ (dd : FlagsDict),
      alookup name (if host.consistent_lun = false then disable_consistent_lun dd
        else enable_consistent_lun dd) = alookup name dd := by
    intro dd
    split_ifs <;>
      simp [disable_consistent_lun, enable_consistent_lun,
        alookup_ainsert_ne _ _ hne]
  rw [hfin]
  rw [report_fold_lookup (FlagValue.state FlagState.Disabled) set_to_disable
    (fun n d => rfl)]
  rw [report_fold_lookup (FlagValue.state FlagState.Enabled) set_to_enable
    (fun n d => rfl)]
  rw [default_dict_lookup name h]
  by_cases hd : name ∈ disabled_report_names host
  · rw [if_pos ((report_names_mem_iff _ name).mp hd), if_pos hd]
  · rw [if_neg (fun hh => hd ((report_names_mem_iff _ name).mpr hh)), if_neg hd]
    by_cases he : name ∈ enabled_report_names host
    · rw [if_pos ((report_names_mem_iff _ name).mp he), if_pos he]
    · rw [if_neg (fun hh => he ((report_names_mem_iff _ name).mpr hh)), if_neg he]

theorem recreate_clun (host : HostRec) :
    alookup "consistent_lun" (recreate_host_flag_dict host)
      = some (FlagValue.boolean host.consistent_lun) := by
  cases hb : host.consistent_lun <;>
    simp [recreate_host_flag_dict, hb, disable_consistent_lun,
      enable_consistent_lun, alookup_ainsert_self]

theorem recreate_keys (host : HostRec)
    (he : ∀ f ∈ splitComma host.enabled_flags,
      0 < f.length → strLower (reSubParen f) ∈ host_flags_list)
    (hd : ∀ f ∈ splitComma host.disabled_flags,
      0 < f.length → strLower (reSubParen f) ∈ host_flags_list) :
    akeys (recreate_host_flag_dict host) = host_flags_list ++ ["consistent_lun"] := by
  have h1 : akeys ((splitComma host.enabled_flags).foldl
      (fun d flag => if 0 < flag.length then set_to_enable (reSubParen flag) d else d)
      create_default_host_flags_dict) = host_flags_list ++ ["consistent_lun"] := by
    rw [report_fold_keys (FlagValue.state FlagState.Enabled) set_to_enable
      (fun n d => rfl) _ _
      (fun f hf hl => by
        rw [default_dict_keys]
        exact List.mem_append_left _ (he f hf hl))]
    exact default_dict_keys
  have h2 : akeys ((splitComma host.disabled_flags).foldl
      (fun d flag => if 0 < flag.length then set_to_disable (reSubParen flag) d else d)
      ((splitComma host.enabled_flags).foldl
        (fun d flag => if 0 < flag.length then set_to_enable (reSubParen flag) d else d)
        create_default_host_flags_dict)) = host_flags_list ++ ["consistent_lun"] := by
    rw [report_fold_keys (FlagValue.state FlagState.Disabled) set_to_disable
      (fun n d => rfl) _ _
      (fun f hf hl => by
        rw [h1]
        exact List.mem_append_left _ (hd f hf hl))]
    exact h1
  have hcl : "consistent_lun" ∈ akeys ((splitComma host.disabled_flags).foldl
      (fun d flag => if 0 < flag.length then set_to_disable (reSubParen flag) d else d)
      ((splitComma host.enabled_flags).foldl
        (fun d flag => if 0 < flag.length then set_to_enable (reSubParen flag) d else d)
        create_default_host_flags_dict)) := by
    rw [h2]
    simp
  simp only [recreate_host_flag_dict]
  split_ifs <;>
    simp only [disable_consistent_lun, enable_consistent_lun] <;>
    rw [akeys_ainsert_mem _ hcl, h2]

/-! ### Initiator-set diff lemmas -/

theorem get_add_initiators_toFinset (existing requested : List String) :
    (get_add_initiators existing requested).toFinset
      = requested.toFinset \ existing.toFinset := by
  ext a
  simp only [get_add_initiators, List.mem_toFinset, List.mem_filter, List.mem_dedup,
    List.mem_append, Finset.mem_sdiff, decide_eq_true_eq]
  tauto

theorem get_remove_initiators_toFinset (existing requested : List String) :
    (get_remove_initiators existing requested).toFinset
      = existing.toFinset ∩ requested.toFinset := by
  ext a
  simp only [get_remove_initiators, List.mem_toFinset, List.mem_filter, List.mem_dedup,
    Finset.mem_inter, decide_eq_true_eq]

theorem toFinset_of_perm {l l' : List String} (h : l.Perm l') :
    l.toFinset = l'.toFinset := by
  ext a
  simp only [List.mem_toFinset]
  exact ⟨fun ha => h.mem_iff.mp ha, fun ha => h.mem_iff.mpr ha⟩

theorem get_add_initiators_empty (existing : List String) :
    get_add_initiators existing [] = [] := by
  unfold get_add_initiators
  rw [List.filter_eq_nil]
  intro a ha
  simp only [List.append_nil, List.mem_dedup] at ha
  simp [ha]

theorem get_remove_initiators_empty (existing : List String) :
    get_remove_initiators existing [] = [] := by
  unfold get_remove_initiators
  rw [List.filter_eq_nil]
  intro a _
  simp

/-! ### Run-level lemmas -/

theorem logCall_faults (w : World) (c : Call) : (logCall w c).faults = w.faults := rfl

theorem logCall_remote (w : World) (c : Call) : (logCall w c).remote = w.remote := rfl

theorem logCall_calls (w : World) (c : Call) :
    (logCall w c).calls = w.calls ++ [c] := rfl

theorem get_host_snd (w : World) (n : String) :
    (get_host w n).2 = logCall w (Call.fetch n) := by
  simp only [get_host]
  split <;> rfl

theorem get_host_fst_failed {w : World} (n : String)
    (h : w.faults.failFetch = true) : (get_host w n).1 = none := by
  simp [get_host, logCall, h]

theorem get_host_fst_ok {w : World} (n : String)
    (h : w.faults.failFetch = false) : (get_host w n).1 = alookup n w.remote := by
  simp [get_host, logCall, h]

theorem bindStep_ok (c : Bool) (w : World)
    (k : Bool → World → Except ErrInfo ResultDict × World) :
    bindStep (Except.ok c, w) k = k c w := rfl

theorem bindStep_error (e : ErrInfo) (w : World)
    (k : Bool → World → Except ErrInfo ResultDict × World) :
    bindStep (Except.error e, w) k = (Except.error e, w) := rfl

theorem orChanged_error (changed : Bool) (e : ErrInfo) (w : World) :
    orChanged changed (Except.error e, w) = (Except.error e, w) := rfl

theorem step1_not_present {p : Params} {host : Option HostRec} {w : World}
    (h : ¬ p.state = "present") : step1 p host w = (Except.ok false, w) := by
  unfold step1
  rw [if_neg (fun hc => h hc.1)]

theorem step2_not_present {p : Params} {host : Option HostRec} {c : Bool} {w : World}
    (h : ¬ p.state = "present") : step2 p host c w = (Except.ok c, w) := by
  unfold step2
  rw [if_neg (fun hc => h hc.1)]

theorem step3_not_present {p : Params} {host : Option HostRec} {c : Bool} {w : World}
    (h : ¬ p.state = "present") : step3 p host c w = (Except.ok c, w) := by
  unfold step3
  rw [if_neg (fun hc => h hc.1)]

theorem step4_not_present {p : Params} {host : Option HostRec} {c : Bool} {w : World}
    (h : ¬ p.state = "present") : step4 p host c w = (Except.ok c, w) := by
  unfold step4
  rw [if_neg (fun hc => h hc.1)]

theorem step5_not_present {p : Params} {host : Option HostRec} {c : Bool} {w : World}
    (h : ¬ p.state = "present") : step5 p host c w = (Except.ok c, w) := by
  unfold step5
  rw [if_neg (fun hc => h hc.1)]

theorem step2_none {p : Params} {c : Bool} {w : World} :
    step2 p none c w = (Except.ok c, w) := by
  unfold step2
  rw [if_neg (fun hc => by simpa using hc.2.1)]

theorem step3_none {p : Params} {c : Bool} {w : World} :
    step3 p none c w = (Except.ok c, w) := by
  unfold step3
  rw [if_neg (fun hc => by simpa using hc.2.1)]

theorem step4_none {p : Params} {c : Bool} {w : World} :
    step4 p none c w = (Except.ok c, w) := by
  unfold step4
  rw [if_neg (fun hc => by simpa using hc.2.1)]

theorem step5_none {p : Params} {c : Bool} {w : World} :
    step5 p none c w = (Except.ok c, w) := by
  unfold step5
  rw [if_neg (fun hc => by simpa using hc.2.1)]

theorem step6_not_absent {p : Params} {host : Option HostRec} {c : Bool} {w : World}
    (h : ¬ p.state = "absent") : step6 p host c w = (Except.ok c, w) := by
  unfold step6
  rw [if_neg (fun hc => h hc.1)]

theorem create_result_dict_calls {p : Params} (c : Bool) (w : World)
    (hs : ¬ p.state = "absent") :
    (create_result_dict p c w).2.calls
      = w.calls ++ [Call.fetch (resultFetchName p)] := by
  unfold create_result_dict resultFetchName
  rw [if_neg hs]
  cases hnn : p.new_name with
  | none => simp [get_host_snd, logCall_calls]
  | some nn =>
    by_cases hne : nn = ""
    · simp [hne, get_host_snd, logCall_calls]
    · simp [hne, get_host_snd, logCall_calls]

theorem create_result_dict_failFetch {p : Params} (c : Bool) {w : World}
    (hff : w.faults.failFetch = true) (hs : ¬ p.state = "absent") :
    (create_result_dict p c w).1 = ⟨c, none⟩ := by
  unfold create_result_dict
  rw [if_neg hs]
  cases hnn : p.new_name with
  | none => simp [get_host_fst_failed _ hff]
  | some nn =>
    by_cases hne : nn = ""
    · simp [hne, get_host_fst_failed _ hff]
    · simp [hne, get_host_fst_failed _ hff]

/-! ## Claim theorems -/

/-- C1 (counterexample): the claim says the modify-path overlay recomputes a
present flag by the same forward rule as the create-path normalizer, mapping
values not recognized as false/unset synonyms (e.g. the string "yes") to
Enabled.  On the code, the overlay's else-branch calls `_set_to_default`,
so the string "yes" yields Default there, while the create-path normalizer
yields Enabled for the same input; consequently `modify_host_flags` detects
no change against an all-default baseline and issues no mutation. -/
theorem C1_counterexample :
    alookup "volume_set_addressing"
      (new_flags_of (recreate_host_flag_dict ⟨"H1", [], "", "", false, []⟩)
        [("volume_set_addressing", RawValue.str "yes")])
      = some (FlagValue.state FlagState.Default)
    ∧ alookup "volume_set_addressing"
      (create_host_flags_dict [("volume_set_addressing", RawValue.str "yes")])
      = some (FlagValue.state FlagState.Enabled)
    ∧ (modify_host_flags "H1" [("volume_set_addressing", RawValue.str "yes")]
        ⟨[("H1", ⟨"H1", [], "", "", false, []⟩)], noFaults, []⟩).1
      = Except.ok false :=
  ⟨by decide, by decide, rfl⟩

/-- C1 (amended): in the flag-reconciliation overlay, every tri-state flag
name present in the raw input is recomputed by the modify-path rule
`overlay_rule`: boolean True or the strings "True"/"true" map to Enabled,
boolean False or the strings "false"/"False" map to Disabled, and any other
value — including "unset" and unrecognized values such as "yes" or 1 —
maps to Default.  This differs from the create-path normalizer, which maps
unrecognized values to Enabled. -/
theorem C1_amended (current : FlagsDict) (received : List (String × RawValue))
    (flag : String) (v : RawValue)
    (hnd : (received.map (fun q => strLower q.1)).Nodup)
    (hmem : (flag, v) ∈ received) (hcl : flag ≠ "consistent_lun") :
    alookup (strLower flag) (new_flags_of current received)
      = some (FlagValue.state (overlay_rule v)) :=
  overlay_mem_lookup received current flag v hnd hmem hcl

/-- Witness for C1 (amended) at the input `{openvms: 1}` over the
all-default baseline: the integer 1 overlays to Default. -/
theorem C1_amended_witness :
    (([("openvms", RawValue.int 1)].map (fun q => strLower q.1)).Nodup)
    ∧ ("openvms", RawValue.int 1) ∈ [("openvms", RawValue.int 1)]
    ∧ ("openvms" : String) ≠ "consistent_lun"
    ∧ alookup (strLower "openvms")
        (new_flags_of create_default_host_flags_dict
          [("openvms", RawValue.int 1)])
        = some (FlagValue.state FlagState.Default) :=
  ⟨by decide, by decide, by decide,
   C1_amended create_default_host_flags_dict [("openvms", RawValue.int 1)]
     "openvms" (RawValue.int 1) (by decide) (by decide) (by decide)⟩

/-- C2 (counterexample): the claim says normalization maps any casing of
"unset" to Default and any casing of "false" to Disabled, and that
consistent_lun is false for any casing of "false"/"unset".  The code only
recognizes the exact spellings 'unset'/'Unset' and 'false'/'False': the
casings "UNSET" and "FALSE" fall through to the enable branch, and
consistent_lun "FALSE" comes out true. -/
theorem C2_counterexample :
    alookup "openvms"
      (create_host_flags_dict [("openvms", RawValue.str "UNSET")])
      = some (FlagValue.state FlagState.Enabled)
    ∧ alookup "scsi_3"
      (create_host_flags_dict [("scsi_3", RawValue.str "FALSE")])
      = some (FlagValue.state FlagState.Enabled)
    ∧ alookup "consistent_lun"
        (create_host_flags_dict [("consistent_lun", RawValue.str "FALSE")])
      = some (FlagValue.boolean true) :=
  ⟨by decide, by decide, by decide⟩

/-- C2 (amended): for every flag name in the fixed eight-name set, the
create-path normalization maps absence or the exact strings
"unset"/"Unset" to Default, boolean false or the exact strings
"false"/"False" to Disabled, and everything else (including other casings
such as "UNSET"/"FALSE") to Enabled; consistent_lun is false exactly for
absence, boolean false, or the exact strings "unset"/"Unset"/"false"/
"False", and true for any other value. -/
theorem C2_amended (received : List (String × RawValue)) (name : String)
    (h : name ∈ host_flags_list) :
    alookup name (create_host_flags_dict received)
      = some (FlagValue.state (norm_flag_rule received name))
    ∧ alookup "consistent_lun" (create_host_flags_dict received)
      = some (FlagValue.boolean (clun_rule received)) :=
  ⟨create_host_flags_dict_lookup received name h,
   create_host_flags_dict_clun received⟩

/-- Witness for C2 (amended) at
`{openvms: "Unset", scsi_3: false, consistent_lun: "unset"}` and the flag
name scsi_3: the lookup evaluates to Disabled and consistent_lun to false. -/
theorem C2_amended_witness :
    ("scsi_3" : String) ∈ host_flags_list
    ∧ alookup "scsi_3" (create_host_flags_dict
        [("openvms", RawValue.str "Unset"), ("scsi_3", RawValue.bool false),
         ("consistent_lun", RawValue.str "unset")])
        = some (FlagValue.state FlagState.Disabled)
    ∧ alookup "consistent_lun" (create_host_flags_dict
        [("openvms", RawValue.str "Unset"), ("scsi_3", RawValue.bool false),
         ("consistent_lun", RawValue.str "unset")])
        = some (FlagValue.boolean false) :=
  ⟨by decide,
   (C2_amended [("openvms", RawValue.str "Unset"), ("scsi_3", RawValue.bool false),
      ("consistent_lun", RawValue.str "unset")] "scsi_3" (by decide)).1,
   (C2_amended [("openvms", RawValue.str "Unset"), ("scsi_3", RawValue.bool false),
      ("consistent_lun", RawValue.str "unset")] "scsi_3" (by decide)).2⟩

/-- C3 (counterexample): the claim says the final snapshot is re-fetched
under the post-rename name if and only if a rename occurred, and that
host_details is empty exactly when final existence is Absent.  On the code,
a run with desired state present, `new_name = "H2"`, against an empty
remote creates "H1" (no rename occurs: the trace holds exactly a fetch, a
create and a final fetch), yet re-fetches the final snapshot under "H2" and
reports empty host_details although the host exists under "H1". -/
theorem C3_counterexample :
    (perform_module_operation ⟨"H1", none, "present", none, none, some "H2"⟩
      ⟨[], noFaults, []⟩).1 = Except.ok ⟨true, none⟩
    ∧ alookup "H1" (perform_module_operation
        ⟨"H1", none, "present", none, none, some "H2"⟩
        ⟨[], noFaults, []⟩).2.remote = some ⟨"H1", [], "", "", false, []⟩
    ∧ (perform_module_operation ⟨"H1", none, "present", none, none, some "H2"⟩
        ⟨[], noFaults, []⟩).2.calls
      = [Call.fetch "H1", Call.create "H1" none none, Call.fetch "H2"] :=
  ⟨rfl, rfl, rfl⟩

/-- C3 (amended): when fetching does not fail, `_create_result_dict`
re-fetches the final snapshot under `new_name` whenever the desired state
is present and `new_name` is truthy — whether or not a rename occurred —
and under the original name otherwise; `host_details` is empty exactly when
the desired state is absent or the final fetch under that chosen name finds
nothing (which can happen while the host still exists under its original
name). -/
theorem C3_amended (p : Params) (changed : Bool) (w : World)
    (hff : w.faults.failFetch = false) :
    ((create_result_dict p changed w).1.host_details = none
      ↔ (p.state = "absent" ∨ alookup (resultFetchName p) w.remote = none))
    ∧ (¬ p.state = "absent" →
        (create_result_dict p changed w).2.calls
          = w.calls ++ [Call.fetch (resultFetchName p)])
    ∧ (create_result_dict p changed w).1.changed = changed := by
  refine ⟨?_, fun hs => create_result_dict_calls changed w hs, ?_⟩
  · by_cases hs : p.state = "absent"
    · simp [create_result_dict, hs]
    · have hdet : (create_result_dict p changed w).1.host_details
          = alookup (resultFetchName p) w.remote := by
        unfold create_result_dict resultFetchName
        rw [if_neg hs]
        cases hnn : p.new_name with
        | none => simp [get_host_fst_ok _ hff]
        | some nn =>
          by_cases hne : nn = ""
          · simp [hne, get_host_fst_ok _ hff]
          · simp [hne, get_host_fst_ok _ hff]
      rw [hdet]
      simp [hs]
  · by_cases hs : p.state = "absent"
    · simp [create_result_dict, hs]
    · unfold create_result_dict
      rw [if_neg hs]
      cases hnn : p.new_name with
      | none => simp
      | some nn =>
        by_cases hne : nn = "" <;> simp [hne]

/-- Witness for C3 (amended): present-state run parameters with
`new_name = "H2"` against a remote that holds "H2": the snapshot is fetched
under "H2" and host_details is nonempty. -/
theorem C3_amended_witness :
    (⟨[("H2", ⟨"H2", [], "", "", false, []⟩)], noFaults, []⟩ : World).faults.failFetch
      = false
    ∧ (((create_result_dict ⟨"H1", none, "present", none, none, some "H2"⟩ false
          ⟨[("H2", ⟨"H2", [], "", "", false, []⟩)], noFaults, []⟩).1.host_details = none
        ↔ ((⟨"H1", none, "present", none, none, some "H2"⟩ : Params).state = "absent"
            ∨ alookup (resultFetchName ⟨"H1", none, "present", none, none, some "H2"⟩)
                (⟨[("H2", ⟨"H2", [], "", "", false, []⟩)], noFaults, []⟩ : World).remote
              = none))
      ∧ (¬ (⟨"H1", none, "present", none, none, some "H2"⟩ : Params).state = "absent" →
          (create_result_dict ⟨"H1", none, "present", none, none, some "H2"⟩ false
            ⟨[("H2", ⟨"H2", [], "", "", false, []⟩)], noFaults, []⟩).2.calls
            = (⟨[("H2", ⟨"H2", [], "", "", false, []⟩)], noFaults, []⟩ : World).calls
              ++ [Call.fetch (resultFetchName
                    ⟨"H1", none, "present", none, none, some "H2"⟩)])
      ∧ (create_result_dict ⟨"H1", none, "present", none, none, some "H2"⟩ false
          ⟨[("H2", ⟨"H2", [], "", "", false, []⟩)], noFaults, []⟩).1.changed = false) :=
  ⟨rfl, C3_amended ⟨"H1", none, "present", none, none, some "H2"⟩ false
    ⟨[("H2", ⟨"H2", [], "", "", false, []⟩)], noFaults, []⟩ rfl⟩

/-- C4: the initiator diffing is pure set algebra: ToAdd is the set
difference requested minus existing, ToRemove the intersection; both are
order-independent and collapse duplicates, ToAdd is disjoint from existing,
ToRemove is contained in the intersection, and an empty requested list
yields empty results. -/
theorem C4_initiator_diff (existing requested existing' requested' : List String) :
    (get_add_initiators existing requested).toFinset
        = requested.toFinset \ existing.toFinset
    ∧ (get_remove_initiators existing requested).toFinset
        = existing.toFinset ∩ requested.toFinset
    ∧ (existing.Perm existing' → requested.Perm requested' →
        (get_add_initiators existing requested).toFinset
            = (get_add_initiators existing' requested').toFinset
        ∧ (get_remove_initiators existing requested).toFinset
            = (get_remove_initiators existing' requested').toFinset)
    ∧ (get_add_initiators existing.dedup requested.dedup).toFinset
        = (get_add_initiators existing requested).toFinset
    ∧ (get_remove_initiators existing.dedup requested.dedup).toFinset
        = (get_remove_initiators existing requested).toFinset
    ∧ (get_add_initiators existing requested).toFinset ∩ existing.toFinset = ∅
    ∧ (get_remove_initiators existing requested).toFinset
        ⊆ existing.toFinset ∩ requested.toFinset
    ∧ get_add_initiators existing [] = []
    ∧ get_remove_initiators existing [] = [] := by
  refine ⟨get_add_initiators_toFinset existing requested,
    get_remove_initiators_toFinset existing requested,
    fun hp hq => ⟨?_, ?_⟩, ?_, ?_, ?_, ?_,
    get_add_initiators_empty existing, get_remove_initiators_empty existing⟩
  · rw [get_add_initiators_toFinset, get_add_initiators_toFinset,
      toFinset_of_perm hp, toFinset_of_perm hq]
  · rw [get_remove_initiators_toFinset, get_remove_initiators_toFinset,
      toFinset_of_perm hp, toFinset_of_perm hq]
  · rw [get_add_initiators_toFinset, get_add_initiators_toFinset]
    ext a
    simp
  · rw [get_remove_initiators_toFinset, get_remove_initiators_toFinset]
    ext a
    simp
  · rw [get_add_initiators_toFinset]
    exact Finset.sdiff_inter_self _ _
  · rw [get_remove_initiators_toFinset]

/-- Witness for C4 at concrete lists with duplicates and a nontrivial
permutation. -/
theorem C4_witness :
    (["a", "b", "a"] : List String).Perm ["b", "a", "a"]
    ∧ (["b", "c"] : List String).Perm ["c", "b"]
    ∧ (get_add_initiators ["a", "b", "a"] ["b", "c"]).toFinset
        = (get_add_initiators ["b", "a", "a"] ["c", "b"]).toFinset
    ∧ (get_remove_initiators ["a", "b", "a"] ["b", "c"]).toFinset
        = (get_remove_initiators ["b", "a", "a"] ["c", "b"]).toFinset :=
  ⟨by decide, by decide,
   ((C4_initiator_diff ["a", "b", "a"] ["b", "c"] ["b", "a", "a"]
      ["c", "b"]).2.2.1 (by decide) (by decide)).1,
   ((C4_initiator_diff ["a", "b", "a"] ["b", "c"] ["b", "a", "a"]
      ["c", "b"]).2.2.1 (by decide) (by decide)).2⟩

/-- C5: the flag overlay is a true partial update for every raw flags input
mentioning only flag names (the eight canonical lowercase names and
`consistent_lun`): every flag name not among the input's keys keeps its
baseline value, and the `consistent_lun` entry keeps its baseline value
when `consistent_lun` is not among the keys.  The final conjunct marks the
boundary of that quantification: the setters write `dict[name.lower()]`
into the one shared dict, so an input key such as `"CONSISTENT_LUN"` —
which is not a flag name — clobbers the `consistent_lun` entry with a
tri-state payload. -/
theorem C5_partial_overlay (current : FlagsDict)
    (received : List (String × RawValue)) (name : String)
    (hkeys : ∀ q ∈ received, q.1 ∈ host_flags_list ∨ q.1 = "consistent_lun") :
    (name ∈ host_flags_list → (∀ q ∈ received, q.1 ≠ name) →
      alookup name (new_flags_of current received) = alookup name current)
    ∧ ((∀ q ∈ received, q.1 ≠ "consistent_lun") →
      alookup "consistent_lun" (new_flags_of current received)
        = alookup "consistent_lun" current)
    ∧ alookup "consistent_lun"
        (new_flags_of current [("CONSISTENT_LUN", RawValue.bool true)])
      = some (FlagValue.state FlagState.Enabled) := by
  have hlow : ∀ q ∈ received, strLower q.1 = q.1 := by
    intro q hq
    rcases hkeys q hq with h | h
    · exact flag_names_lower q.1 (List.mem_append_left _ h)
    · rw [h]
      exact strLower_clun
  refine ⟨fun _ hne => overlay_frame received current name
      (fun q hq => by rw [hlow q hq]; exact hne q hq),
    fun hne => overlay_frame received current "consistent_lun"
      (fun q hq => by rw [hlow q hq]; exact hne q hq),
    ?_⟩
  show alookup "consistent_lun"
    (overlay_step current ("CONSISTENT_LUN", RawValue.bool true))
    = some (FlagValue.state FlagState.Enabled)
  unfold overlay_step
  rw [if_pos (by decide : ("CONSISTENT_LUN" : String) ≠ "consistent_lun")]
  rw [if_pos (Or.inl rfl)]
  show alookup "consistent_lun"
    (ainsert (strLower "CONSISTENT_LUN") (FlagValue.state FlagState.Enabled) current)
    = some (FlagValue.state FlagState.Enabled)
  rw [show strLower "CONSISTENT_LUN" = "consistent_lun" from by decide]
  exact alookup_ainsert_self _ _ _

/-- Witness for C5: overlaying `{openvms: true}` on a baseline leaves
scsi_3 and the consistent_lun entry at their baseline values. -/
theorem C5_witness :
    (∀ q ∈ [("openvms", RawValue.bool true)],
      q.1 ∈ host_flags_list ∨ q.1 = "consistent_lun")
    ∧ ("scsi_3" : String) ∈ host_flags_list
    ∧ (∀ q ∈ [("openvms", RawValue.bool true)], q.1 ≠ "scsi_3")
    ∧ (∀ q ∈ [("openvms", RawValue.bool true)], q.1 ≠ "consistent_lun")
    ∧ alookup "scsi_3" (new_flags_of (recreate_host_flag_dict
        ⟨"H", [], "SCSI_3(Ovrd)", "", true, []⟩)
        [("openvms", RawValue.bool true)])
      = alookup "scsi_3" (recreate_host_flag_dict
          ⟨"H", [], "SCSI_3(Ovrd)", "", true, []⟩)
    ∧ alookup "consistent_lun" (new_flags_of (recreate_host_flag_dict
        ⟨"H", [], "SCSI_3(Ovrd)", "", true, []⟩)
        [("openvms", RawValue.bool true)])
      = alookup "consistent_lun" (recreate_host_flag_dict
          ⟨"H", [], "SCSI_3(Ovrd)", "", true, []⟩) :=
  ⟨by decide, by decide, by decide, by decide,
   (C5_partial_overlay (recreate_host_flag_dict
      ⟨"H", [], "SCSI_3(Ovrd)", "", true, []⟩)
      [("openvms", RawValue.bool true)] "scsi_3" (by decide)).1
     (by decide) (by decide),
   (C5_partial_overlay (recreate_host_flag_dict
      ⟨"H", [], "SCSI_3(Ovrd)", "", true, []⟩)
      [("openvms", RawValue.bool true)] "scsi_3" (by decide)).2.1
     (by decide)⟩

/-- C6 (counterexample): the claim says no extra flag names survive for any
raw input, including inputs with unrecognized flag names.  On the modify
path the overlay inserts any unrecognized input key (lowercased) into the
dict, and the resulting ten-key payload (eight canonical names,
consistent_lun, and the extra key) is handed to the set-flags mutation
call. -/
theorem C6_counterexample :
    akeys (new_flags_of (recreate_host_flag_dict ⟨"H1", [], "", "", false, []⟩)
        [("bogus", RawValue.bool true)])
      = host_flags_list ++ ["consistent_lun", "bogus"]
    ∧ (modify_host_flags "H1" [("bogus", RawValue.bool true)]
        ⟨[("H1", ⟨"H1", [], "", "", false, []⟩)], noFaults, []⟩).2.calls
      = [Call.fetch "H1",
         Call.setFlags "H1"
           (new_flags_of (recreate_host_flag_dict ⟨"H1", [], "", "", false, []⟩)
             [("bogus", RawValue.bool true)])] :=
  ⟨by decide, rfl⟩

/-- C6 (amended): the create-path normalization unconditionally — for every
raw flags input, including inputs containing unrecognized flag names, which
it ignores — produces a dict whose keys are exactly the eight canonical
names plus `consistent_lun` (all pairwise distinct).  The modify-path
overlay preserves that key set provided every input key lowercases into the
canonical set or into `consistent_lun`; an input key outside that set is
added as an extra (lowercased) key, as the counterexample shows. -/
theorem C6_amended (received : List (String × RawValue)) (host : HostRec) :
    akeys (create_host_flags_dict received) = host_flags_list ++ ["consistent_lun"]
    ∧ ((∀ q ∈ received,
          strLower q.1 ∈ host_flags_list ∨ strLower q.1 = "consistent_lun") →
       (∀ f ∈ splitComma host.enabled_flags,
          0 < f.length → strLower (reSubParen f) ∈ host_flags_list) →
       (∀ f ∈ splitComma host.disabled_flags,
          0 < f.length → strLower (reSubParen f) ∈ host_flags_list) →
       akeys (new_flags_of (recreate_host_flag_dict host) received)
         = host_flags_list ++ ["consistent_lun"])
    ∧ (host_flags_list ++ ["consistent_lun"]).Nodup := by
  refine ⟨create_host_flags_dict_keys received, fun hrecv he hd => ?_, by decide⟩
  rw [overlay_keys_frame received _
    (fun q hq => by
      rw [recreate_keys host he hd]
      rcases hrecv q hq with h | h
      · exact List.mem_append_left _ h
      · rw [h]
        simp)]
  exact recreate_keys host he hd

/-- Witness for C6 (amended): the create path at an input holding only the
unrecognized key "bogus" still yields exactly the canonical keys (the
unrecognized key is ignored), and the overlay at an input touching OPENVMS
(uppercase) over a remote report naming SCSI_3 with an annotation keeps the
canonical key set. -/
theorem C6_amended_witness :
    akeys (create_host_flags_dict [("bogus", RawValue.bool true)])
      = host_flags_list ++ ["consistent_lun"]
    ∧ (∀ q ∈ [("OPENVMS", RawValue.str "true")],
        strLower q.1 ∈ host_flags_list ∨ strLower q.1 = "consistent_lun")
    ∧ (∀ f ∈ splitComma (⟨"H", [], "SCSI_3(X)", "", true, []⟩ : HostRec).enabled_flags,
        0 < f.length → strLower (reSubParen f) ∈ host_flags_list)
    ∧ (∀ f ∈ splitComma (⟨"H", [], "SCSI_3(X)", "", true, []⟩ : HostRec).disabled_flags,
        0 < f.length → strLower (reSubParen f) ∈ host_flags_list)
    ∧ akeys (new_flags_of (recreate_host_flag_dict ⟨"H", [], "SCSI_3(X)", "", true, []⟩)
        [("OPENVMS", RawValue.str "true")])
      = host_flags_list ++ ["consistent_lun"] :=
  ⟨(C6_amended [("bogus", RawValue.bool true)]
      ⟨"H", [], "SCSI_3(X)", "", true, []⟩).1,
   by decide, by decide, by decide,
   (C6_amended [("OPENVMS", RawValue.str "true")]
      ⟨"H", [], "SCSI_3(X)", "", true, []⟩).2.1
     (by decide) (by decide) (by decide)⟩

/-- C7: in the create step, the supplied initiators list is discarded
(`None` is passed to the gateway create) when initiator_state is
absent-in-host or unset, and is passed through when initiator_state is
present-in-host; the spec's create scenario runs end to end with the
create call carrying `["iqn.a"]` and result changed = true. -/
theorem C7_create_initiators (p : Params) :
    ((p.initiator_state = some "absent-in-host" ∨ p.initiator_state = none) →
      create_initiators_resolved p = none)
    ∧ (p.initiator_state = some "present-in-host" →
      create_initiators_resolved p = p.initiators)
    ∧ (perform_module_operation ⟨"H1", some ["iqn.a"], "present",
          some "present-in-host", none, none⟩ ⟨[], noFaults, []⟩).1
        = Except.ok ⟨true, some ⟨"H1", ["iqn.a"], "", "", false, []⟩⟩
    ∧ Call.create "H1" (some ["iqn.a"]) none ∈
        (perform_module_operation ⟨"H1", some ["iqn.a"], "present",
          some "present-in-host", none, none⟩ ⟨[], noFaults, []⟩).2.calls := by
  refine ⟨fun h => ?_, fun h => ?_, rfl, by decide⟩
  · unfold create_initiators_resolved
    rw [if_pos h]
  · unfold create_initiators_resolved
    rw [h]
    rw [if_neg (by decide)]

/-- Witness for C7 at a parameter record with initiator_state
absent-in-host: the supplied initiators are discarded. -/
theorem C7_witness :
    ((⟨"H", some ["x"], "present", some "absent-in-host", none, none⟩ : Params).initiator_state
        = some "absent-in-host"
      ∨ (⟨"H", some ["x"], "present", some "absent-in-host", none, none⟩ : Params).initiator_state
        = none)
    ∧ create_initiators_resolved
        ⟨"H", some ["x"], "present", some "absent-in-host", none, none⟩ = none :=
  ⟨Or.inl rfl,
   (C7_create_initiators
     ⟨"H", some ["x"], "present", some "absent-in-host", none, none⟩).1 (Or.inl rfl)⟩

/-- C8: reconstructing the canonical flag dict from the remote report
assigns, to every canonical flag name, Disabled if the name occurs in the
disabled list and Enabled if it occurs (only) in the enabled list — where
occurrence is decided after stripping every parenthesized annotation
(pattern `\(.*?\)`) from each nonempty comma-separated entry and
lowercasing — and Default if it occurs in neither list; consistent_lun is
copied from the report. -/
theorem C8_recreate_report (host : HostRec) (name : String)
    (h : name ∈ host_flags_list) :
    alookup name (recreate_host_flag_dict host)
      = (if name ∈ disabled_report_names host
           then some (FlagValue.state FlagState.Disabled)
         else if name ∈ enabled_report_names host
           then some (FlagValue.state FlagState.Enabled)
         else some (FlagValue.state FlagState.Default))
    ∧ alookup "consistent_lun" (recreate_host_flag_dict host)
      = some (FlagValue.boolean host.consistent_lun) :=
  ⟨recreate_lookup host name h, recreate_clun host⟩

/-- Witness for C8 at a report with annotated names: `SCSI_3(EnabledFlag)`
enables scsi_3 after stripping. -/
theorem C8_witness :
    ("scsi_3" : String) ∈ host_flags_list
    ∧ alookup "scsi_3" (recreate_host_flag_dict
        ⟨"H", [], "SCSI_3(EnabledFlag),OPENVMS(x)(y)", "VOLUME_SET_ADDRESSING",
         true, []⟩) = some (FlagValue.state FlagState.Enabled)
    ∧ alookup "consistent_lun" (recreate_host_flag_dict
        ⟨"H", [], "SCSI_3(EnabledFlag),OPENVMS(x)(y)", "VOLUME_SET_ADDRESSING",
         true, []⟩) = some (FlagValue.boolean true) :=
  ⟨by decide,
   (C8_recreate_report
     ⟨"H", [], "SCSI_3(EnabledFlag),OPENVMS(x)(y)", "VOLUME_SET_ADDRESSING",
      true, []⟩ "scsi_3" (by decide)).1,
   (C8_recreate_report
     ⟨"H", [], "SCSI_3(EnabledFlag),OPENVMS(x)(y)", "VOLUME_SET_ADDRESSING",
      true, []⟩ "scsi_3" (by decide)).2⟩

/-- C9: every failing mutation call is fatal for the whole run.  A failing
create aborts the run at once — the trace stops at the create call, no
later step executes, and the surfaced failure names the operation, the host
and the cause; a delete rejected because the host is referenced by a
masking view likewise aborts the run as an error (the host is not deleted,
the remote state is untouched); and each of the add-initiators,
remove-initiators, rename, set-flags and delete operations can only fail
with an error naming that operation, the host and the underlying cause. -/
theorem C9_fatal_failures :
    (∀ (p : Params) (w : World), w.faults.failCreate = true →
      p.state = "present" → (get_host w p.host_name).1 = none →
      p.host_name ≠ "" →
      (perform_module_operation p w).1
        = Except.error ⟨"Create host", p.host_name, w.faults.cause⟩
      ∧ (perform_module_operation p w).2.calls
        = w.calls ++ [Call.fetch p.host_name,
            Call.create p.host_name (create_initiators_resolved p)
              (create_flags_resolved p)])
    ∧ (∀ (p : Params) (w : World) (h : HostRec), w.faults.failFetch = false →
        p.state = "absent" → alookup p.host_name w.remote = some h →
        h.maskingview ≠ [] →
        (perform_module_operation p w).1
          = Except.error ⟨"Delete host", p.host_name,
              "host is part of a masking view"⟩
        ∧ (perform_module_operation p w).2.remote = w.remote)
    ∧ (∀ (n : String) (inits : List String) (w w' : World) (e : ErrInfo),
        add_host_initiators n inits w = (Except.error e, w') →
        e = ⟨"Adding initiators", n, w.faults.cause⟩)
    ∧ (∀ (n : String) (inits : List String) (w w' : World) (e : ErrInfo),
        remove_host_initiators n inits w = (Except.error e, w') →
        e = ⟨"Removing initiators", n, w.faults.cause⟩)
    ∧ (∀ (n nn : String) (w w' : World) (e : ErrInfo),
        rename_host n nn w = (Except.error e, w') →
        e = ⟨"Renaming of host", n, w.faults.cause⟩)
    ∧ (∀ (n : String) (received : List (String × RawValue)) (w w' : World)
        (e : ErrInfo) (h : HostRec), w.faults.failFetch = false →
        alookup n w.remote = some h →
        modify_host_flags n received w = (Except.error e, w') →
        e = ⟨"Modify host", n, w.faults.cause⟩)
    ∧ (∀ (n : String) (w w' : World) (e : ErrInfo),
        delete_host n w = (Except.error e, w') →
        e.op = "Delete host" ∧ e.host = n) := by
  refine ⟨?_, ?_, ?_, ?_, ?_, ?_, ?_⟩
  · -- failing create aborts the run with the named error
    intro p w hc hs hf hn
    have hrun : perform_module_operation p w
        = (Except.error ⟨"Create host", p.host_name, w.faults.cause⟩,
           logCall (logCall w (Call.fetch p.host_name))
             (Call.create p.host_name (create_initiators_resolved p)
               (create_flags_resolved p))) := by
      simp only [perform_module_operation]
      rw [hf, get_host_snd]
      unfold step1
      rw [if_pos ⟨hs, rfl, hn⟩]
      simp only [create_host]
      rw [if_pos (show (logCall (logCall w (Call.fetch p.host_name))
          (Call.create p.host_name (create_initiators_resolved p)
            (create_flags_resolved p))).faults.failCreate = true from hc)]
      simp only [bindStep_error]
      rfl
    rw [hrun]
    exact ⟨rfl, by simp [logCall]⟩
  · -- delete rejected by a masking view aborts the run, remote untouched
    intro p w h hff hs hlook hmask
    have hnp : ¬ p.state = "present" := by rw [hs]; decide
    have hhost : (get_host w p.host_name).1 = some h := by
      rw [get_host_fst_ok _ hff, hlook]
    have hrun : perform_module_operation p w
        = (Except.error ⟨"Delete host", p.host_name,
             "host is part of a masking view"⟩,
           logCall (logCall w (Call.fetch p.host_name))
             (Call.delete p.host_name)) := by
      simp only [perform_module_operation]
      rw [hhost, get_host_snd]
      simp only [step1_not_present hnp, bindStep_ok, step2_not_present hnp,
        step3_not_present hnp, step4_not_present hnp, step5_not_present hnp]
      unfold step6
      rw [if_pos ⟨hs, rfl⟩]
      simp only [delete_host]
      rw [show alookup p.host_name (logCall (logCall w (Call.fetch p.host_name))
          (Call.delete p.host_name)).remote = some h from hlook]
      simp only [if_pos hmask, orChanged_error, bindStep_error]
    rw [hrun]
    exact ⟨rfl, rfl⟩
  · -- add-initiators failures name the operation, host and cause
    intro n inits w w' e heq
    simp only [add_host_initiators] at heq
    split at heq
    · simp at heq
    · split at heq
      · split at heq
        · simp only [Prod.mk.injEq, Except.error.injEq] at heq
          rw [← heq.1, get_host_snd]
          rfl
        · simp at heq
      · simp at heq
  · -- remove-initiators failures name the operation, host and cause
    intro n inits w w' e heq
    simp only [remove_host_initiators] at heq
    split at heq
    · simp at heq
    · split at heq
      · split at heq
        · simp only [Prod.mk.injEq, Except.error.injEq] at heq
          rw [← heq.1, get_host_snd]
          rfl
        · simp at heq
      · simp at heq
  · -- rename failures name the operation, host and cause
    intro n nn w w' e heq
    simp only [rename_host] at heq
    split at heq
    · simp only [Prod.mk.injEq, Except.error.injEq] at heq
      exact heq.1.symm
    · simp at heq
  · -- set-flags failures name the operation, host and cause
    intro n received w w' e h hff hlook heq
    simp only [modify_host_flags] at heq
    rw [get_host_fst_ok _ hff, hlook] at heq
    simp only [] at heq
    split at heq
    · simp at heq
    · split at heq
      · simp only [Prod.mk.injEq, Except.error.injEq] at heq
        rw [← heq.1, get_host_snd]
        rfl
      · simp at heq
  · -- delete failures name the operation and the host
    intro n w w' e heq
    simp only [delete_host] at heq
    split at heq
    · split at heq
      · simp only [Prod.mk.injEq, Except.error.injEq] at heq
        rw [← heq.1]
        exact ⟨rfl, rfl⟩
      · split at heq
        · simp only [Prod.mk.injEq, Except.error.injEq] at heq
          rw [← heq.1]
          exact ⟨rfl, rfl⟩
        · simp at heq
    · split at heq
      · simp only [Prod.mk.injEq, Except.error.injEq] at heq
        rw [← heq.1]
        exact ⟨rfl, rfl⟩
      · simp at heq

/-- Witness for C9: a run deleting host "H1" that is referenced by masking
view "MV1" aborts with the delete error naming host and cause, and leaves
the remote state unchanged. -/
theorem C9_witness :
    (⟨[("H1", ⟨"H1", [], "", "", false, ["MV1"]⟩)], noFaults, []⟩ : World).faults.failFetch
      = false
    ∧ (⟨"H1", none, "absent", none, none, none⟩ : Params).state = "absent"
    ∧ alookup "H1"
        (⟨[("H1", ⟨"H1", [], "", "", false, ["MV1"]⟩)], noFaults, []⟩ : World).remote
      = some ⟨"H1", [], "", "", false, ["MV1"]⟩
    ∧ (⟨"H1", [], "", "", false, ["MV1"]⟩ : HostRec).maskingview ≠ []
    ∧ (perform_module_operation ⟨"H1", none, "absent", none, none, none⟩
        ⟨[("H1", ⟨"H1", [], "", "", false, ["MV1"]⟩)], noFaults, []⟩).1
      = Except.error ⟨"Delete host", "H1", "host is part of a masking view"⟩
    ∧ (perform_module_operation ⟨"H1", none, "absent", none, none, none⟩
        ⟨[("H1", ⟨"H1", [], "", "", false, ["MV1"]⟩)], noFaults, []⟩).2.remote
      = (⟨[("H1", ⟨"H1", [], "", "", false, ["MV1"]⟩)], noFaults, []⟩ : World).remote :=
  ⟨rfl, rfl, rfl, by decide,
   (C9_fatal_failures.2.1 ⟨"H1", none, "absent", none, none, none⟩
     ⟨[("H1", ⟨"H1", [], "", "", false, ["MV1"]⟩)], noFaults, []⟩
     ⟨"H1", [], "", "", false, ["MV1"]⟩ rfl rfl rfl (by decide)).1,
   (C9_fatal_failures.2.1 ⟨"H1", none, "absent", none, none, none⟩
     ⟨[("H1", ⟨"H1", [], "", "", false, ["MV1"]⟩)], noFaults, []⟩
     ⟨"H1", [], "", "", false, ["MV1"]⟩ rfl rfl rfl (by decide)).2⟩

/-- C10: any exception while fetching a host is swallowed and treated as
NotFound — the fetch returns no record even when the host exists remotely —
and a run with desired state present then attempts a create instead of
aborting: it finishes successfully with a create call for the host name in
its trace. -/
theorem C10_fetch_swallow :
    (∀ (w : World) (n : String), w.faults.failFetch = true →
      (get_host w n).1 = none)
    ∧ (∀ (p : Params) (w : World), w.faults.failFetch = true →
        p.state = "present" → p.host_name ≠ "" → w.faults.failCreate = false →
        (perform_module_operation p w).1 = Except.ok ⟨true, none⟩
        ∧ Call.create p.host_name (create_initiators_resolved p)
            (create_flags_resolved p)
          ∈ (perform_module_operation p w).2.calls) := by
  refine ⟨fun w n h => get_host_fst_failed n h, fun p w hff hs hn hc => ?_⟩
  have hnab : ¬ p.state = "absent" := by rw [hs]; decide
  have hfaults : (remote_create p.host_name (create_initiators_resolved p)
      (logCall (get_host w p.host_name).2
        (Call.create p.host_name (create_initiators_resolved p)
          (create_flags_resolved p)))).faults = w.faults := by
    rw [get_host_snd]
    rfl
  have hrun : perform_module_operation p w
      = (Except.ok (create_result_dict p true
            (remote_create p.host_name (create_initiators_resolved p)
              (logCall (get_host w p.host_name).2
                (Call.create p.host_name (create_initiators_resolved p)
                  (create_flags_resolved p))))).1,
         (create_result_dict p true
            (remote_create p.host_name (create_initiators_resolved p)
              (logCall (get_host w p.host_name).2
                (Call.create p.host_name (create_initiators_resolved p)
                  (create_flags_resolved p))))).2) := by
    simp only [perform_module_operation]
    rw [get_host_fst_failed _ hff]
    unfold step1
    rw [if_pos ⟨hs, rfl, hn⟩]
    simp only [create_host]
    rw [if_neg (by rw [get_host_snd]; simp [logCall, hc])]
    simp only [bindStep_ok, step2_none, step3_none, step4_none, step5_none,
      step6_not_absent hnab]
  constructor
  · rw [hrun]
    rw [create_result_dict_failFetch true (by rw [hfaults]; exact hff) hnab]
  · rw [hrun]
    rw [create_result_dict_calls true _ hnab]
    rw [show (remote_create p.host_name (create_initiators_resolved p)
        (logCall (get_host w p.host_name).2
          (Call.create p.host_name (create_initiators_resolved p)
            (create_flags_resolved p)))).calls
      = (logCall (get_host w p.host_name).2
          (Call.create p.host_name (create_initiators_resolved p)
            (create_flags_resolved p))).calls from rfl]
    rw [logCall_calls]
    simp

/-- Witness for C10: a world whose fetch always fails but that really holds
"H1" still leads a present-state run to attempt (and here complete) a
create of "H1". -/
theorem C10_witness :
    (⟨[("H1", ⟨"H1", [], "", "", false, []⟩)],
        ⟨true, false, false, false, false, false, false, "socket timeout"⟩, []⟩
      : World).faults.failFetch = true
    ∧ (⟨"H1", none, "present", none, none, none⟩ : Params).state = "present"
    ∧ (⟨"H1", none, "present", none, none, none⟩ : Params).host_name ≠ ""
    ∧ (⟨[("H1", ⟨"H1", [], "", "", false, []⟩)],
        ⟨true, false, false, false, false, false, false, "socket timeout"⟩, []⟩
      : World).faults.failCreate = false
    ∧ (perform_module_operation ⟨"H1", none, "present", none, none, none⟩
        ⟨[("H1", ⟨"H1", [], "", "", false, []⟩)],
          ⟨true, false, false, false, false, false, false, "socket timeout"⟩, []⟩).1
      = Except.ok ⟨true, none⟩
    ∧ Call.create "H1"
        (create_initiators_resolved ⟨"H1", none, "present", none, none, none⟩)
        (create_flags_resolved ⟨"H1", none, "present", none, none, none⟩)
      ∈ (perform_module_operation ⟨"H1", none, "present", none, none, none⟩
          ⟨[("H1", ⟨"H1", [], "", "", false, []⟩)],
            ⟨true, false, false, false, false, false, false, "socket timeout"⟩, []⟩).2.calls :=
  ⟨rfl, rfl, by decide, rfl,
   (C10_fetch_swallow.2 ⟨"H1", none, "present", none, none, none⟩
     ⟨[("H1", ⟨"H1", [], "", "", false, []⟩)],
       ⟨true, false, false, false, false, false, false, "socket timeout"⟩, []⟩
     rfl rfl (by decide) rfl).1,
   (C10_fetch_swallow.2 ⟨"H1", none, "present", none, none, none⟩
     ⟨[("H1", ⟨"H1", [], "", "", false, []⟩)],
       ⟨true, false, false, false, false, false, false, "socket timeout"⟩, []⟩
     rfl rfl (by decide) rfl).2⟩

end PowerMaxHost
